import Mathlib

/-!
Shallow embedding of the vonage-analyzer knowledge-hub core
(`src/database.py`, `src/embeddings.py`).

Conventions used throughout:
* Python floats that only ever hold results of exact small-integer
  arithmetic and division are modelled as `ℚ` (all score values the code
  produces are exact in binary64 for the magnitudes involved).
* SQLite rows are modelled as Lean structures; a table is a `List` of rows,
  and an `UPDATE ... WHERE` statement is a `List.map` guarded by the WHERE
  predicate, a `DELETE` a `List.filter`.
* Timestamp columns and columns irrelevant to every claim are omitted.
-/

/-- A row of the `scripts` table (`src/database.py`, schema lines 220-236).
Only the columns the verified operations touch are modelled. -/
structure Script where
  id : Nat
  questionId : Nat
  scriptText : String
  scriptType : String
  hasSteps : Bool
  successCount : Nat
  failCount : Nat
  effectiveness : ℚ
  isBest : Bool
deriving DecidableEq

/-- A row of the `questions` table (schema lines 186-204).  The
`embedding` blob is modelled separately (`QuestionRow` for the similarity
scan, `serialize_embedding` for its storage encoding) because the vector
plays no role in the bookkeeping operations below. -/
structure Question where
  id : Nat
  canonicalText : String
  timesAsked : Nat
  status : String
  moderationStatus : String
  bestScriptId : Option Nat
deriving DecidableEq

/-- A row of the `question_variants` table. -/
structure Variant where
  questionId : Nat
  variantText : String
deriving DecidableEq

/-- A row of the `merged_questions` audit table. -/
structure MergeRecord where
  sourceQuestionId : Nat
  targetQuestionId : Nat
  sourceCanonicalText : String
deriving DecidableEq

/-- A row of the `moderation_log` table, fields in the order of
`add_moderation_log(question_id, script_id, action, reason, old_value,
new_value, admin_user)`. -/
structure ModerationLogEntry where
  questionId : Nat
  scriptId : Option Nat
  action : String
  reason : Option String
  oldValue : Option String
  newValue : Option String
  adminUser : String
deriving DecidableEq

/-- The mutable database state the verified operations read and write. -/
structure HubState where
  questions : List Question
  variants : List Variant
  scripts : List Script
  mergedQuestions : List MergeRecord
  moderationLog : List ModerationLogEntry
deriving DecidableEq

/-! ## Script effectiveness (`_update_script_effectiveness`, database.py 897-914) -/

/-- The effectiveness recomputation of `_update_script_effectiveness`
(database.py 897-914): base = success/(success+fail)*100 when the total is
positive, else 50; then `base += 10` for step-structured scripts and
`base += 5` for type `"instruction"`; finally `min(base, 100.0)`. -/
def update_script_effectiveness (successCount failCount : Nat)
    (hasSteps : Bool) (scriptType : String) : ℚ :=
  let base : ℚ :=
    if 0 < successCount + failCount then
      (successCount : ℚ) / ((successCount : ℚ) + (failCount : ℚ)) * 100
    else 50
  let base := if hasSteps then base + 10 else base
  let base := if scriptType = "instruction" then base + 5 else base
  min base 100

/-- The effectiveness formula in the spec's own phrasing (§4.3):
`min(100, base + 10·[has_steps] + 5·[type="instruction"])` with
`base = successes/(successes+fails) × 100` for a positive total and `50.0`
otherwise.  Used to compare the code against the spec. -/
def spec_effectiveness (successCount failCount : Nat)
    (hasSteps : Bool) (scriptType : String) : ℚ :=
  let base : ℚ :=
    if 0 < successCount + failCount then
      (successCount : ℚ) / ((successCount : ℚ) + (failCount : ℚ)) * 100
    else 50
  min 100 (base + (if hasSteps then 10 else 0) + (if scriptType = "instruction" then 5 else 0))

/-- Effect of `update_script_count` (database.py 862-877) on the updated
script row itself: increment the success or fail counter, then recompute
effectiveness immediately.  (The subsequent `_update_best_script` call is
modelled by `update_best_script` below and does not touch the counters or
the effectiveness.) -/
def update_script_count (s : Script) (success : Bool) : Script :=
  let s :=
    if success then { s with successCount := s.successCount + 1 }
    else { s with failCount := s.failCount + 1 }
  { s with effectiveness :=
      update_script_effectiveness s.successCount s.failCount s.hasSteps s.scriptType }

/-- `add_script` (database.py 766-791): the freshly inserted script row.
The initial effectiveness is a 70/30 prior depending on `resolved`, plus
the `has_steps`/`instruction` bonuses, capped at 100; the counters start
at (1,0) for a resolved outcome and (0,1) otherwise. -/
def add_script (questionId : Nat) (scriptText : String) (scriptType : String)
    (hasSteps : Bool) (resolved : Bool) (newId : Nat) : Script :=
  let eff : ℚ := if resolved then 70 else 30
  let eff := if hasSteps then eff + 10 else eff
  let eff := if scriptType = "instruction" then eff + 5 else eff
  let eff := min eff 100
  { id := newId
    questionId := questionId
    scriptText := scriptText
    scriptType := scriptType
    hasSteps := hasSteps
    successCount := if resolved then 1 else 0
    failCount := if resolved then 0 else 1
    effectiveness := eff
    isBest := false }

/-- C2: after an outcome update increments one of the counters, the
recomputed effectiveness equals the spec formula
`min(100, base + 10·[has_steps] + 5·[type="instruction"])` applied to the
new counters; in particular (7,3,steps,instruction) gives 85 and
(10,0,steps,instruction) caps at 100. -/
theorem update_script_count_effectiveness :
    (∀ (s : Script) (success : Bool),
      (update_script_count s success).effectiveness =
        spec_effectiveness (update_script_count s success).successCount
          (update_script_count s success).failCount s.hasSteps s.scriptType) ∧
    update_script_effectiveness 7 3 true "instruction" = 85 ∧
    update_script_effectiveness 10 0 true "instruction" = 100 := by
  refine ⟨fun s success => ?_, ?_, ?_⟩
  · cases success <;>
      · simp only [update_script_count, update_script_effectiveness, spec_effectiveness]
        split_ifs <;> rw [min_comm] <;> (congr 1; push_cast; ring)
  · norm_num [update_script_effectiveness]
  · norm_num [update_script_effectiveness]

/-- C6 counterexample: a fresh script added with a resolved outcome and no
bonuses gets counters (1,0) but stored effectiveness 70, while the
claimed counter formula min(100, 100·1/(1+0)) yields 100. -/
theorem add_script_effectiveness_counterexample :
    (add_script 1 "please restart the handset" "explanation" false true 1).successCount = 1 ∧
    (add_script 1 "please restart the handset" "explanation" false true 1).failCount = 0 ∧
    (add_script 1 "please restart the handset" "explanation" false true 1).effectiveness = 70 ∧
    spec_effectiveness 1 0 false "explanation" = 100 ∧
    (70 : ℚ) ≠ 100 := by
  refine ⟨rfl, rfl, ?_, ?_, by norm_num⟩
  · simp only [add_script]
    rw [if_neg (by decide : ¬ ("explanation" = "instruction"))]
    norm_num [min_def]
  · simp only [spec_effectiveness]
    rw [if_neg (by decide : ¬ ("explanation" = "instruction"))]
    norm_num [min_def]

/-- C6 amended: a freshly created script starts with success_count=1,
fail_count=0 on a resolved outcome (0 and 1 otherwise), and its stored
effectiveness is the creation-time prior
min(100, (70 if resolved else 30) + 10·[has_steps] + 5·[type="instruction"]) —
not the counter formula. -/
theorem add_script_initial_state (questionId : Nat) (scriptText scriptType : String)
    (hasSteps resolved : Bool) (newId : Nat) :
    (add_script questionId scriptText scriptType hasSteps resolved newId).successCount
        = (if resolved then 1 else 0) ∧
    (add_script questionId scriptText scriptType hasSteps resolved newId).failCount
        = (if resolved then 0 else 1) ∧
    (add_script questionId scriptText scriptType hasSteps resolved newId).effectiveness
        = min 100 ((if resolved then (70 : ℚ) else 30)
            + (if hasSteps then 10 else 0)
            + (if scriptType = "instruction" then 5 else 0)) := by
  refine ⟨rfl, rfl, ?_⟩
  simp only [add_script]
  split_ifs <;> rw [min_comm] <;> (congr 1; ring)

/-! ## Embedding storage encoding (`serialize_embedding` / `deserialize_embedding`,
database.py 94-106)

`struct.pack('<N>f', *v)` writes each vector element as the 4 little-endian
bytes of its IEEE-754 binary32 encoding, and `struct.unpack` reads them
back.  A stored float is modelled by its binary32 bit pattern (a `Nat`
below `2^32`); the lossy binary64 → binary32 rounding that `struct.pack`
performs on the way in is exactly the "representation error" the claim
quotients out, so the storage layer itself is an exact round trip on bit
patterns. -/

/-- The 4 little-endian bytes of a 32-bit pattern, as `struct.pack 'f'`
lays them out. -/
def pack32 (x : Nat) : List Nat :=
  [x % 256, x / 256 % 256, x / 65536 % 256, x / 16777216 % 256]

/-- Reassemble a 32-bit pattern from its 4 little-endian bytes. -/
def unpack32 (b0 b1 b2 b3 : Nat) : Nat :=
  b0 + 256 * b1 + 65536 * b2 + 16777216 * b3

/-- `serialize_embedding` (database.py 94-98): `None` maps to `None`;
otherwise concatenate the 4-byte encodings of the elements. -/
def serialize_embedding : Option (List Nat) → Option (List Nat)
  | none => none
  | some v => some (v.flatMap pack32)

/-- The unpacking loop of `struct.unpack(f'{len(blob)//4}f', blob)`:
consume 4 bytes at a time; a trailing fragment shorter than 4 bytes is
dropped (integer division by 4). -/
def unpackBytes : List Nat → List Nat
  | b0 :: b1 :: b2 :: b3 :: rest => unpack32 b0 b1 b2 b3 :: unpackBytes rest
  | _ => []

/-- `deserialize_embedding` (database.py 101-106): `None` maps to `None`;
otherwise decode `len(blob) // 4` floats. -/
def deserialize_embedding : Option (List Nat) → Option (List Nat)
  | none => none
  | some blob => some (unpackBytes blob)

theorem unpack32_pack32 (x : Nat) (hx : x < 4294967296) :
    unpack32 (x % 256) (x / 256 % 256) (x / 65536 % 256) (x / 16777216 % 256) = x := by
  simp only [unpack32]
  omega

theorem unpackBytes_pack32_append (x : Nat) (rest : List Nat) :
    unpackBytes (pack32 x ++ rest) =
      unpack32 (x % 256) (x / 256 % 256) (x / 65536 % 256) (x / 16777216 % 256)
        :: unpackBytes rest := rfl

/-- C9: the storage encoding round-trips: for every vector of binary32 bit
patterns, deserializing its serialization returns it unchanged, and both
directions map `None` to `None`. -/
theorem serialize_embedding_roundtrip :
    (∀ v : List Nat, (∀ x ∈ v, x < 4294967296) →
      deserialize_embedding (serialize_embedding (some v)) = some v) ∧
    serialize_embedding none = none ∧
    deserialize_embedding none = none := by
  refine ⟨fun v hv => ?_, rfl, rfl⟩
  simp only [serialize_embedding, deserialize_embedding, Option.some.injEq]
  induction v with
  | nil => rfl
  | cons x xs ih =>
    have hx : x < 4294967296 := hv x (List.mem_cons_self x xs)
    have hxs : ∀ y ∈ xs, y < 4294967296 := fun y hy => hv y (List.mem_cons_of_mem x hy)
    simp only [List.flatMap_cons]
    rw [unpackBytes_pack32_append, unpack32_pack32 x hx, ih hxs]

/-- C9 witness: the round trip evaluated at the concrete vector
[0, 1, 3221225472] (bit patterns of 0.0, a denormal, and -2.0). -/
theorem serialize_embedding_roundtrip_witness :
    deserialize_embedding (serialize_embedding (some [0, 1, 3221225472])) =
      some [0, 1, 3221225472] :=
  serialize_embedding_roundtrip.1 [0, 1, 3221225472] (by decide)

/-! ## Python string primitives

The text heuristics below work on `List Char` so that every operation is
directly executable.  `pyLower`/`pyStrip` model `str.lower()`/`str.strip()`
(ASCII case folding, which covers every string the heuristics are applied
to), `splitWords` models argument-less `str.split()` (split on whitespace
runs, no empty words), and `isSubChars` models the Python substring test
`needle in hay`. -/

def pyLower (s : List Char) : List Char := s.map Char.toLower

def pyStrip (s : List Char) : List Char :=
  ((s.dropWhile Char.isWhitespace).reverse.dropWhile Char.isWhitespace).reverse

/-- `text.lower().strip()`. -/
def normalizeText (s : String) : List Char := pyStrip (pyLower s.data)

def splitWordsAux : List Char → List Char → List (List Char)
  | [], cur => if cur = [] then [] else [cur.reverse]
  | c :: rest, cur =>
    if c.isWhitespace then
      if cur = [] then splitWordsAux rest []
      else cur.reverse :: splitWordsAux rest []
    else splitWordsAux rest (c :: cur)

/-- Argument-less Python `str.split()`. -/
def splitWords (s : List Char) : List (List Char) := splitWordsAux s []

def isPrefixList : List Char → List Char → Bool
  | [], _ => true
  | _ :: _, [] => false
  | a :: xs, b :: ys => a == b && isPrefixList xs ys

/-- Python substring test `needle in hay`. -/
def isSubChars (needle hay : List Char) : Bool :=
  (List.range (hay.length + 1)).any fun i => isPrefixList needle (hay.drop i)

/-! ## Duplicate-script detection (`find_similar_script`, database.py 834-859) -/

/-- The per-pair duplicate test inside `find_similar_script`'s loop
(database.py 843-858): identical normalized texts; otherwise, when both
normalized texts are longer than 50 characters, `shorter in longer` — with
`shorter`/`longer` computed by Python's `min`/`max` with `key=len`, both of
which return the FIRST argument (the incoming text) on a length tie — and
failing that, word-set overlap `|W_new ∩ W_existing| / |W_new|` strictly
above the threshold (default 0.9), the denominator being the incoming
text's word set. -/
def similar_script (newText existingText : String) (similarityThreshold : ℚ) : Bool :=
  let n := normalizeText newText
  let e := normalizeText existingText
  if n = e then true
  else if 50 < n.length ∧ 50 < e.length then
    let shorter := if e.length < n.length then e else n
    let longer := if n.length < e.length then e else n
    if isSubChars shorter longer then true
    else
      let wordsNew := (splitWords n).dedup
      let wordsExisting := (splitWords e).dedup
      if 0 < wordsNew.length then
        if similarityThreshold <
            mkRat ((wordsNew.filter fun w => wordsExisting.contains w).length : Int) wordsNew.length
        then true else false
      else false
  else false

/-- The whole of `find_similar_script` (database.py 834-859): scan the
question's scripts in storage order and return the id of the first one the
pair test accepts. -/
def find_similar_script (scripts : List Script) (questionId : Nat)
    (scriptText : String) (similarityThreshold : ℚ) : Option Nat :=
  ((scripts.filter fun s => s.questionId == questionId).find?
      (fun s => similar_script scriptText s.scriptText similarityThreshold)).map Script.id

/-- The duplicate-script criterion as the claim states it: identical
normalized texts, or one a substring of the other (both longer than 50
characters), or word-set overlap above the threshold measured relative to
the SHORTER of the two texts. -/
def claimed_similar_script (newText existingText : String) (threshold : ℚ) : Bool :=
  let n := normalizeText newText
  let e := normalizeText existingText
  let shorter := if e.length < n.length then e else n
  let inter := ((splitWords n).dedup.filter fun w => ((splitWords e).dedup).contains w).length
  (n == e) ||
  (decide (50 < n.length) && decide (50 < e.length) && (isSubChars n e || isSubChars e n)) ||
  decide (threshold < mkRat (inter : Int) ((splitWords shorter).dedup.length))

/-- C8 counterexample: for these two scripts of one question the code says
"not the same" (overlap 8/10 relative to the incoming text's 10 words)
while the claimed criterion says "the same" (overlap 8/8 relative to the
shorter text's 8 words). -/
theorem similar_script_counterexample :
    similar_script
        "alpha0 alpha1 alpha2 alpha3 alpha4 alpha5 alpha6 alpha7 alpha8 alpha9"
        "alpha1 alpha0 alpha2 alpha3 alpha4 alpha5 alpha6 alpha7" (mkRat 9 10) = false ∧
    claimed_similar_script
        "alpha0 alpha1 alpha2 alpha3 alpha4 alpha5 alpha6 alpha7 alpha8 alpha9"
        "alpha1 alpha0 alpha2 alpha3 alpha4 alpha5 alpha6 alpha7" (mkRat 9 10) = true := by
  constructor
  · decide
  · decide

/-! ## Filter rules (`apply_filter_rules`, database.py 1274-1322) and
question creation (`add_question`, database.py 532-540) -/

/-- A filter rule's `rule_type` together with its `condition_value`.  The
`regex` rule type runs `re.search(condition, text, IGNORECASE)`; that
matcher is modelled as an abstract predicate on the text. -/
inductive RuleCondition where
  | contains (condition : String)
  | notContains (condition : String)
  | wordCountLt (condition : String)
  | wordCountGt (condition : String)
  | startsWith (condition : String)
  | regexSearch (search : String → Bool)

/-- A row of the `filter_rules` table. -/
structure FilterRule where
  rule : RuleCondition
  action : String
  isActive : Bool

/-- `len(text.split())` on the original (unlowered, unstripped) text. -/
def word_count (text : String) : Nat := (splitWords text.data).length

/-- One iteration of the rule loop in `apply_filter_rules`
(database.py 1286-1313): whether the rule matches the text.
`int(condition)` raising `ValueError` (modelled by `String.toInt?`
returning `none`) leaves `matched` false. -/
def ruleMatches (r : RuleCondition) (text : String) : Bool :=
  match r with
  | .contains c => isSubChars (pyLower c.data) (normalizeText text)
  | .notContains c => !(isSubChars (pyLower c.data) (normalizeText text))
  | .wordCountLt c =>
      match c.toInt? with
      | some limit => decide ((word_count text : Int) < limit)
      | none => false
  | .wordCountGt c =>
      match c.toInt? with
      | some limit => decide (limit < (word_count text : Int))
      | none => false
  | .startsWith c => isPrefixList (pyLower c.data) (normalizeText text)
  | .regexSearch f => f text

/-- The rule loop of `apply_filter_rules` (database.py 1286-1322) over the
already-fetched active rules, in their retrieval order: the first matching
rule with an `auto_reject`/`auto_approve` action decides; a matching rule
with any other action just continues; no decision means `"pending"`. -/
def applyFilterRulesGo (text : String) : List FilterRule → String
  | [] => "pending"
  | r :: rest =>
    if ruleMatches r.rule text then
      if r.action = "auto_reject" then "rejected"
      else if r.action = "auto_approve" then "approved"
      else applyFilterRulesGo text rest
    else applyFilterRulesGo text rest

/-- `apply_filter_rules` (database.py 1274-1322): empty text is rejected
outright; otherwise the active rules (the `WHERE is_active = 1` fetch) are
evaluated in order. -/
def apply_filter_rules (rules : List FilterRule) (text : String) : String :=
  if text = "" then "rejected"
  else applyFilterRulesGo text (rules.filter fun r => r.isActive)

/-- `add_question` (database.py 532-540): insert a question row with
status `'no_answer'`; the unnamed columns take their schema defaults
(`moderation_status` `'pending'`, `times_asked` 1, `best_script_id` NULL).
No filter rule is consulted.  (The cluster/subcategory/embedding columns
are omitted — no claim touches them.) -/
def add_question (st : HubState) (canonicalText : String) (newId : Nat) : HubState :=
  { st with questions := st.questions ++
      [{ id := newId, canonicalText := canonicalText, timesAsked := 1,
         status := "no_answer", moderationStatus := "pending", bestScriptId := none }] }

/-- `apply_rules_to_existing_questions` (database.py 1801-1817): the only
caller of `apply_filter_rules`; re-evaluates every stored question. -/
def apply_rules_to_existing_questions (rules : List FilterRule) (st : HubState) : HubState :=
  { st with questions := st.questions.map fun q =>
      { q with moderationStatus := apply_filter_rules rules q.canonicalText } }

theorem applyFilterRulesGo_of_no_match (text : String) :
    ∀ l : List FilterRule, (∀ r ∈ l, ruleMatches r.rule text = false) →
      applyFilterRulesGo text l = "pending" := by
  intro l
  induction l with
  | nil => intro _; rfl
  | cons r rest ih =>
    intro h
    simp only [applyFilterRulesGo, h r (List.mem_cons_self r rest)]
    exact ih fun r' h' => h r' (List.mem_cons_of_mem r h')

theorem applyFilterRulesGo_append_of_no_match (text : String) :
    ∀ l₁ l₂ : List FilterRule, (∀ r ∈ l₁, ruleMatches r.rule text = false) →
      applyFilterRulesGo text (l₁ ++ l₂) = applyFilterRulesGo text l₂ := by
  intro l₁ l₂
  induction l₁ with
  | nil => intro _; rfl
  | cons r rest ih =>
    intro h
    simp only [List.cons_append, applyFilterRulesGo, h r (List.mem_cons_self r rest)]
    exact ih fun r' h' => h r' (List.mem_cons_of_mem r h')

/-- C7 counterexample: with an active `contains "battery" → auto_approve`
rule in place, the rule evaluation yields `"approved"` for this text, yet
the freshly created question's moderation status is `"pending"`. -/
theorem add_question_moderation_counterexample :
    (((add_question ⟨[], [], [], [], []⟩ "battery will not charge overnight" 1).questions.find?
        fun q => q.id == 1).map Question.moderationStatus) = some "pending" ∧
    apply_filter_rules [⟨RuleCondition.contains "battery", "auto_approve", true⟩]
        "battery will not charge overnight" = "approved" ∧
    ("pending" : String) ≠ "approved" := by
  refine ⟨rfl, by decide, by decide⟩

/-- C7 amended: a freshly created question's initial moderation status is
always `"pending"` regardless of the filter rules; the ordered
first-match-wins evaluation (reject/approve on the first matching active
rule, `"pending"` when no active rule matches a nonempty text) governs
moderation status only when rules are explicitly (re)applied to stored
questions. -/
theorem add_question_initial_moderation :
    (∀ (st : HubState) (text : String) (newId : Nat),
      ∃ q : Question, (add_question st text newId).questions = st.questions ++ [q] ∧
        q.moderationStatus = "pending" ∧ q.canonicalText = text) ∧
    (∀ (rules : List FilterRule) (text : String), text ≠ "" →
      (∀ r ∈ rules, r.isActive = true → ruleMatches r.rule text = false) →
      apply_filter_rules rules text = "pending") ∧
    (∀ (pre post : List FilterRule) (r : FilterRule) (text : String), text ≠ "" →
      (∀ r' ∈ pre, r'.isActive = true → ruleMatches r'.rule text = false) →
      r.isActive = true → ruleMatches r.rule text = true → r.action = "auto_reject" →
      apply_filter_rules (pre ++ r :: post) text = "rejected") ∧
    (∀ (pre post : List FilterRule) (r : FilterRule) (text : String), text ≠ "" →
      (∀ r' ∈ pre, r'.isActive = true → ruleMatches r'.rule text = false) →
      r.isActive = true → ruleMatches r.rule text = true →
      r.action ≠ "auto_reject" → r.action = "auto_approve" →
      apply_filter_rules (pre ++ r :: post) text = "approved") ∧
    (∀ (rules : List FilterRule) (st : HubState),
      ∀ q ∈ (apply_rules_to_existing_questions rules st).questions,
        q.moderationStatus = apply_filter_rules rules q.canonicalText) := by
  refine ⟨fun st text newId => ⟨_, rfl, rfl, rfl⟩, ?_, ?_, ?_, ?_⟩
  · intro rules text htext h
    simp only [apply_filter_rules, if_neg htext]
    exact applyFilterRulesGo_of_no_match text _ fun r hr => by
      have := List.of_mem_filter hr
      exact h r (List.mem_of_mem_filter hr) (by simpa using this)
  · intro pre post r text htext h hact hmatch haction
    simp only [apply_filter_rules, if_neg htext, List.filter_append]
    rw [applyFilterRulesGo_append_of_no_match text _ _ fun r' hr' =>
      h r' (List.mem_of_mem_filter hr') (by simpa using List.of_mem_filter hr')]
    simp only [List.filter_cons, hact, applyFilterRulesGo, hmatch, haction]
    simp
  · intro pre post r text htext h hact hmatch hreject happrove
    simp only [apply_filter_rules, if_neg htext, List.filter_append]
    rw [applyFilterRulesGo_append_of_no_match text _ _ fun r' hr' =>
      h r' (List.mem_of_mem_filter hr') (by simpa using List.of_mem_filter hr')]
    simp only [List.filter_cons, hact, applyFilterRulesGo, hmatch, happrove,
      if_neg hreject]
    simp
  · intro rules st q hq
    simp only [apply_rules_to_existing_questions, List.mem_map] at hq
    obtain ⟨q₀, _, rfl⟩ := hq
    rfl

/-- C7 witness: the amended statement applied at concrete inputs — an
active reject rule fires, and an empty rule set leaves a nonempty text
pending. -/
theorem add_question_initial_moderation_witness :
    apply_filter_rules ([] ++ ⟨RuleCondition.contains "spam", "auto_reject", true⟩ :: [])
        "please stop the spam messages" = "rejected" ∧
    apply_filter_rules [] "hello there" = "pending" := by
  constructor
  · exact add_question_initial_moderation.2.2.1 [] []
      ⟨RuleCondition.contains "spam", "auto_reject", true⟩ _
      (by decide) (fun r' hr' => absurd hr' (List.not_mem_nil r')) rfl (by decide) rfl
  · exact add_question_initial_moderation.2.1 [] _
      (by decide) (fun r hr => absurd hr (List.not_mem_nil r))

/-- C8 amended duplicate-script criterion, as the code implements it:
identical normalized texts; or — both normalized texts longer than 50
characters — Python's `min`/`max` with `key=len` pick of shorter/longer
(both resolving to the incoming text on a length tie) gives a substring
hit, or the fraction of the INCOMING text's word set that also occurs in
the existing text's word set strictly exceeds the threshold. -/
def amended_similar_script (newText existingText : String) (threshold : ℚ) : Prop :=
  let n := normalizeText newText
  let e := normalizeText existingText
  n = e ∨
  (50 < n.length ∧ 50 < e.length ∧
    (isSubChars (if e.length < n.length then e else n) (if n.length < e.length then e else n) = true ∨
     (0 < (splitWords n).dedup.length ∧
      threshold <
        mkRat (((splitWords n).dedup.filter fun w => ((splitWords e).dedup).contains w).length : Int)
          ((splitWords n).dedup.length))))

theorem ite_chain_iff (c1 A B c3 c4 c5 : Prop) [Decidable c1] [Decidable A] [Decidable B]
    [Decidable c3] [Decidable c4] [Decidable c5] :
    (if c1 then true
     else if A ∧ B then
       (if c3 then true else (if c4 then (if c5 then true else false) else false))
     else false) = true ↔ (c1 ∨ (A ∧ B ∧ (c3 ∨ (c4 ∧ c5)))) := by
  split_ifs <;> constructor <;> intro h <;> tauto

/-- C8 amended: the pair test of `find_similar_script` accepts exactly the
pairs described by the corrected criterion. -/
theorem similar_script_amended (newText existingText : String) (threshold : ℚ) :
    similar_script newText existingText threshold = true ↔
      amended_similar_script newText existingText threshold := by
  simp only [similar_script, amended_similar_script]
  exact ite_chain_iff _ _ _ _ _ _

/-- C8 amended witness: two identical one-character scripts are accepted. -/
theorem similar_script_amended_witness :
    similar_script "ok" "ok" (mkRat 9 10) = true ↔
      amended_similar_script "ok" "ok" (mkRat 9 10) :=
  similar_script_amended "ok" "ok" (mkRat 9 10)

/-! ## Best-script recompute (`_update_best_script`, database.py 917-943) -/

/-- `UPDATE scripts SET is_best = 0 WHERE question_id = ?` applied to one row. -/
def clearBest (qid : Nat) (s : Script) : Script :=
  if s.questionId = qid then { s with isBest := false } else s

/-- `UPDATE scripts SET is_best = 1 WHERE id = ?` applied to one row. -/
def markBest (bid : Nat) (s : Script) : Script :=
  if s.id = bid then { s with isBest := true } else s

@[simp] theorem clearBest_id (qid : Nat) (s : Script) : (clearBest qid s).id = s.id := by
  unfold clearBest; split <;> rfl

@[simp] theorem clearBest_questionId (qid : Nat) (s : Script) :
    (clearBest qid s).questionId = s.questionId := by
  unfold clearBest; split <;> rfl

@[simp] theorem clearBest_effectiveness (qid : Nat) (s : Script) :
    (clearBest qid s).effectiveness = s.effectiveness := by
  unfold clearBest; split <;> rfl

@[simp] theorem clearBest_successCount (qid : Nat) (s : Script) :
    (clearBest qid s).successCount = s.successCount := by
  unfold clearBest; split <;> rfl

@[simp] theorem markBest_id (bid : Nat) (s : Script) : (markBest bid s).id = s.id := by
  unfold markBest; split <;> rfl

@[simp] theorem markBest_questionId (bid : Nat) (s : Script) :
    (markBest bid s).questionId = s.questionId := by
  unfold markBest; split <;> rfl

@[simp] theorem markBest_effectiveness (bid : Nat) (s : Script) :
    (markBest bid s).effectiveness = s.effectiveness := by
  unfold markBest; split <;> rfl

@[simp] theorem markBest_successCount (bid : Nat) (s : Script) :
    (markBest bid s).successCount = s.successCount := by
  unfold markBest; split <;> rfl

/-- "at least as good": the (effectiveness, success_count) tuple of `b` is
lexicographically at least that of `t`. -/
def scoreGE (b t : Script) : Prop :=
  t.effectiveness < b.effectiveness ∨
  (t.effectiveness = b.effectiveness ∧ t.successCount ≤ b.successCount)

theorem scoreGE_refl (s : Script) : scoreGE s s := Or.inr ⟨rfl, le_refl _⟩

theorem scoreGE_trans {x y z : Script} (h1 : scoreGE x y) (h2 : scoreGE y z) : scoreGE x z := by
  rcases h1 with h1 | ⟨h1, h1'⟩ <;> rcases h2 with h2 | ⟨h2, h2'⟩
  · exact Or.inl (h2.trans h1)
  · exact Or.inl (by rw [h2]; exact h1)
  · exact Or.inl (by rw [← h1]; exact h2)
  · exact Or.inr ⟨h2.trans h1, h2'.trans h1'⟩

/-- One step of scanning for the `ORDER BY effectiveness DESC,
success_count DESC LIMIT 1` row: keep the current candidate unless the
next row is strictly better in the lexicographic order (so the first
stored row wins full ties, matching the storage-order scan). -/
def bestStep (acc : Option Script) (s : Script) : Option Script :=
  match acc with
  | none => some s
  | some b =>
    if b.effectiveness < s.effectiveness ∨
        (b.effectiveness = s.effectiveness ∧ b.successCount < s.successCount) then some s
    else some b

/-- The `SELECT ... ORDER BY effectiveness DESC, success_count DESC LIMIT 1`
of `_update_best_script` over the question's scripts. -/
def pickBest (l : List Script) : Option Script := l.foldl bestStep none

/-- The status derivation of `_update_best_script` (database.py 932-937). -/
def statusFor (eff : ℚ) : String :=
  if 70 ≤ eff then "resolved" else if 0 < eff then "needs_work" else "no_answer"

/-- `_update_best_script` (database.py 917-943): clear `is_best` on all of
the question's scripts, pick the top row by (effectiveness, success_count),
mark it and point the question at it with the derived status; with no
scripts, null the pointer and set status `'no_answer'`. -/
def update_best_script (scripts : List Script) (questions : List Question) (qid : Nat) :
    List Script × List Question :=
  let cleared := scripts.map (clearBest qid)
  match pickBest (cleared.filter fun s => s.questionId == qid) with
  | some b =>
    (cleared.map (markBest b.id),
     questions.map fun q =>
       if q.id = qid then
         { q with status := statusFor b.effectiveness, bestScriptId := some b.id }
       else q)
  | none =>
    (cleared,
     questions.map fun q =>
       if q.id = qid then { q with status := "no_answer", bestScriptId := none } else q)

theorem foldl_bestStep_spec (rest : List Script) :
    ∀ a : Script, ∃ b, rest.foldl bestStep (some a) = some b ∧
      (b = a ∨ b ∈ rest) ∧ scoreGE b a ∧ ∀ t ∈ rest, scoreGE b t := by
  induction rest with
  | nil =>
    intro a
    exact ⟨a, rfl, Or.inl rfl, scoreGE_refl a, fun t ht => absurd ht (List.not_mem_nil t)⟩
  | cons s rest ih =>
    intro a
    by_cases hc : a.effectiveness < s.effectiveness ∨
        (a.effectiveness = s.effectiveness ∧ a.successCount < s.successCount)
    · obtain ⟨b, hb, hmem, hge, hall⟩ := ih s
      have hsa : scoreGE s a := by
        rcases hc with h | ⟨h1, h2⟩
        · exact Or.inl h
        · exact Or.inr ⟨h1, le_of_lt h2⟩
      have hstep : bestStep (some a) s = some s := by
        simp only [bestStep]
        exact if_pos hc
      refine ⟨b, ?_, ?_, scoreGE_trans hge hsa, ?_⟩
      · simp only [List.foldl_cons, hstep]
        exact hb
      · rcases hmem with rfl | hm
        · exact Or.inr (List.mem_cons_self b rest)
        · exact Or.inr (List.mem_cons_of_mem s hm)
      · intro t ht
        rcases List.mem_cons.mp ht with rfl | hm
        · exact hge
        · exact hall t hm
    · obtain ⟨b, hb, hmem, hge, hall⟩ := ih a
      have has : scoreGE a s := by
        rcases lt_trichotomy s.effectiveness a.effectiveness with h | h | h
        · exact Or.inl h
        · refine Or.inr ⟨h, ?_⟩
          by_contra hle
          push_neg at hle
          exact hc (Or.inr ⟨h.symm, hle⟩)
        · exact absurd (Or.inl h) hc
      have hstep : bestStep (some a) s = some a := by
        simp only [bestStep]
        exact if_neg hc
      refine ⟨b, ?_, ?_, hge, ?_⟩
      · simp only [List.foldl_cons, hstep]
        exact hb
      · rcases hmem with rfl | hm
        · exact Or.inl rfl
        · exact Or.inr (List.mem_cons_of_mem s hm)
      · intro t ht
        rcases List.mem_cons.mp ht with rfl | hm
        · exact scoreGE_trans hge has
        · exact hall t hm

theorem pickBest_spec {l : List Script} (h : l ≠ []) :
    ∃ b, pickBest l = some b ∧ b ∈ l ∧ ∀ t ∈ l, scoreGE b t := by
  match l with
  | [] => exact absurd rfl h
  | s :: rest =>
    obtain ⟨b, hb, hmem, hge, hall⟩ := foldl_bestStep_spec rest s
    refine ⟨b, ?_, ?_, ?_⟩
    · show (s :: rest).foldl bestStep none = some b
      simp only [List.foldl_cons]
      exact hb
    · rcases hmem with rfl | hm
      · exact List.mem_cons_self b rest
      · exact List.mem_cons_of_mem s hm
    · intro t ht
      rcases List.mem_cons.mp ht with rfl | hm
      · exact hge
      · exact hall t hm

/-- The best-script invariant of claim C1 for question `qid` over a
(scripts, questions) state: if the question has no scripts, none of its
scripts is marked best (vacuously) and the question's pointer is null with
the no-script status `'no_answer'`; otherwise exactly one of its scripts
is marked best, that script's (effectiveness, success_count) tuple is
lexicographically highest among the question's scripts, the question
points at it, and the question's derived status is `'resolved'` for
effectiveness ≥ 70, `'needs_work'` strictly between 0 and 70, and
`'no_answer'` at or below 0. -/
def BestScriptInvariant (scripts : List Script) (questions : List Question) (qid : Nat) : Prop :=
  if scripts.filter (fun s => s.questionId == qid) = [] then
    (∀ s ∈ scripts, s.questionId = qid → s.isBest = false) ∧
    (∀ q ∈ questions, q.id = qid → q.bestScriptId = none ∧ q.status = "no_answer")
  else
    ∃ b ∈ scripts, b.questionId = qid ∧ b.isBest = true ∧
      scripts.countP (fun s => s.questionId == qid && s.isBest) = 1 ∧
      (∀ t ∈ scripts, t.questionId = qid → scoreGE b t) ∧
      (∀ q ∈ questions, q.id = qid →
        q.bestScriptId = some b.id ∧
        (70 ≤ b.effectiveness → q.status = "resolved") ∧
        (0 < b.effectiveness → b.effectiveness < 70 → q.status = "needs_work") ∧
        (b.effectiveness ≤ 0 → q.status = "no_answer"))

theorem update_best_script_establishes (scripts : List Script) (questions : List Question)
    (qid : Nat) (hids : (scripts.map Script.id).Nodup) :
    BestScriptInvariant (update_best_script scripts questions qid).1
      (update_best_script scripts questions qid).2 qid := by
  by_cases hq : (scripts.map (clearBest qid)).filter (fun s => s.questionId == qid) = []
  · have hpick : pickBest ((scripts.map (clearBest qid)).filter fun s => s.questionId == qid)
        = none := by rw [hq]; rfl
    have hres : update_best_script scripts questions qid =
        (scripts.map (clearBest qid),
         questions.map fun q =>
           if q.id = qid then { q with status := "no_answer", bestScriptId := none } else q) := by
      simp only [update_best_script]
      rw [hpick]
    rw [hres]
    unfold BestScriptInvariant
    rw [if_pos hq]
    constructor
    · intro s hs hsq
      have hmem : s ∈ (scripts.map (clearBest qid)).filter (fun s => s.questionId == qid) :=
        List.mem_filter.mpr ⟨hs, by simp [hsq]⟩
      rw [hq] at hmem
      exact absurd hmem (List.not_mem_nil s)
    · intro q hqmem hqid
      obtain ⟨q₀, _, rfl⟩ := List.mem_map.mp hqmem
      by_cases h : q₀.id = qid
      · simp [if_pos h]
      · rw [if_neg h] at hqid ⊢
        exact absurd hqid h
  · obtain ⟨b₀, hpick, hmem, hall⟩ := pickBest_spec hq
    have hres : update_best_script scripts questions qid =
        ((scripts.map (clearBest qid)).map (markBest b₀.id),
         questions.map fun q =>
           if q.id = qid then
             { q with status := statusFor b₀.effectiveness, bestScriptId := some b₀.id }
           else q) := by
      simp only [update_best_script]
      rw [hpick]
    have hb₀qid : b₀.questionId = qid := by
      have := (List.mem_filter.mp hmem).2
      simpa using this
    have hb₀mem : b₀ ∈ scripts.map (clearBest qid) := (List.mem_filter.mp hmem).1
    obtain ⟨s₀, hs₀mem, hs₀⟩ := List.mem_map.mp hb₀mem
    rw [hres]
    unfold BestScriptInvariant
    rw [if_neg ?hne]
    case hne =>
      intro hnil
      apply hq
      rw [List.filter_map] at hnil
      have hcomp : ((fun s => s.questionId == qid) ∘ markBest b₀.id)
          = (fun s : Script => s.questionId == qid) := by
        funext s
        simp [Function.comp]
      rw [hcomp] at hnil
      exact List.map_eq_nil_iff.mp hnil
    refine ⟨markBest b₀.id b₀, List.mem_map_of_mem (markBest b₀.id) hb₀mem,
      by simpa using hb₀qid, by simp [markBest], ?_, ?_, ?_⟩
    · -- exactly one best-marked script of the question
      rw [List.map_map, List.countP_map]
      have hcongr : List.countP
          ((fun s => s.questionId == qid && s.isBest) ∘ (markBest b₀.id ∘ clearBest qid)) scripts
          = List.countP (fun s => s.questionId == qid && s.id == b₀.id) scripts := by
        apply List.countP_congr
        intro s _
        simp only [Function.comp]
        by_cases hid : s.id = b₀.id
        · have hmb : (markBest b₀.id (clearBest qid s)).isBest = true := by
            unfold markBest
            rw [if_pos (by simp [hid])]
          simp [hmb, hid]
        · have hmb : markBest b₀.id (clearBest qid s) = clearBest qid s := by
            unfold markBest
            rw [if_neg (by simp [hid])]
          by_cases hsq : s.questionId = qid
          · have hcb : clearBest qid s = { s with isBest := false } := by
              unfold clearBest
              rw [if_pos hsq]
            rw [hcb] at hmb
            simp [hmb, hcb, hid]
          · have hcb : clearBest qid s = s := by
              unfold clearBest
              rw [if_neg hsq]
            simp [hmb, hcb, hid, hsq]
      rw [hcongr]
      have hle : List.countP (fun s => s.questionId == qid && s.id == b₀.id) scripts
          ≤ List.countP (fun s : Script => s.id == b₀.id) scripts :=
        List.countP_mono_left fun s _ h => by
          simp only [Bool.and_eq_true] at h
          exact h.2
      have hcount : List.countP (fun s : Script => s.id == b₀.id) scripts ≤ 1 := by
        have h1 := List.nodup_iff_count_le_one.mp hids b₀.id
        rw [List.count_eq_countP, List.countP_map] at h1
        exact h1
      have hpos : 0 < List.countP (fun s => s.questionId == qid && s.id == b₀.id) scripts := by
        refine List.countP_pos_iff.mpr ⟨s₀, hs₀mem, ?_⟩
        have hq1 : s₀.questionId = qid := by
          have h := congrArg Script.questionId hs₀
          rw [clearBest_questionId] at h
          exact h.trans hb₀qid
        have hq2 : s₀.id = b₀.id := by
          have h := congrArg Script.id hs₀
          rw [clearBest_id] at h
          exact h
        simp [hq1, hq2]
      omega
    · intro t ht htq
      obtain ⟨c, hcmem, rfl⟩ := List.mem_map.mp ht
      have hcq : c.questionId = qid := by simpa using htq
      have hcfilter : c ∈ (scripts.map (clearBest qid)).filter (fun s => s.questionId == qid) :=
        List.mem_filter.mpr ⟨hcmem, by simp [hcq]⟩
      have := hall c hcfilter
      simpa [scoreGE] using this
    · intro q hqmem hqid
      obtain ⟨q₀, _, rfl⟩ := List.mem_map.mp hqmem
      by_cases h : q₀.id = qid
      · rw [if_pos h]
        refine ⟨by simp, ?_, ?_, ?_⟩
        · intro h70
          simp only [statusFor]
          rw [if_pos (by simpa using h70)]
        · intro h0 h70
          simp only [statusFor]
          rw [if_neg (by simpa using not_le.mpr h70), if_pos (by simpa using h0)]
        · intro h0
          simp only [statusFor]
          rw [if_neg (by simpa using not_le.mpr (lt_of_le_of_lt h0 (by norm_num))),
            if_neg (by simpa using not_lt.mpr h0)]
      · rw [if_neg h] at hqid ⊢
        exact absurd hqid h

/-- C1: after any best-script recompute (the `_update_best_script` routine
run by add_script, outcome recording, script deletion and merge), the
question's scripts and row satisfy the best-script invariant: exactly one
script is marked best and it has the lexicographically highest
(effectiveness, success_count) tuple, the question points at it, and the
derived status is `'resolved'` at effectiveness ≥ 70, `'needs_work'`
strictly between 0 and 70; with zero scripts no script is marked, the
pointer is null and the status is the no-script status `'no_answer'`. -/
theorem update_best_script_invariant (scripts : List Script) (questions : List Question)
    (qid : Nat) (hids : (scripts.map Script.id).Nodup) :
    BestScriptInvariant (update_best_script scripts questions qid).1
      (update_best_script scripts questions qid).2 qid :=
  update_best_script_establishes scripts questions qid hids

/-- C1 witness: the spec's tie-break example — effectiveness [40, 85, 85]
with success counts [1, 3, 5]: the invariant holds after the recompute and
the winner is the success_count=5 script (id 3). -/
theorem update_best_script_invariant_witness :
    (([⟨1, 1, "a", "instruction", false, 1, 0, 40, false⟩,
       ⟨2, 1, "b", "instruction", false, 3, 0, 85, false⟩,
       ⟨3, 1, "c", "instruction", false, 5, 0, 85, false⟩] : List Script).map Script.id).Nodup ∧
    BestScriptInvariant
      (update_best_script
        [⟨1, 1, "a", "instruction", false, 1, 0, 40, false⟩,
         ⟨2, 1, "b", "instruction", false, 3, 0, 85, false⟩,
         ⟨3, 1, "c", "instruction", false, 5, 0, 85, false⟩]
        [⟨1, "how do i fix this", 1, "no_answer", "pending", none⟩] 1).1
      (update_best_script
        [⟨1, 1, "a", "instruction", false, 1, 0, 40, false⟩,
         ⟨2, 1, "b", "instruction", false, 3, 0, 85, false⟩,
         ⟨3, 1, "c", "instruction", false, 5, 0, 85, false⟩]
        [⟨1, "how do i fix this", 1, "no_answer", "pending", none⟩] 1).2 1 ∧
    ((update_best_script
        [⟨1, 1, "a", "instruction", false, 1, 0, 40, false⟩,
         ⟨2, 1, "b", "instruction", false, 3, 0, 85, false⟩,
         ⟨3, 1, "c", "instruction", false, 5, 0, 85, false⟩]
        [⟨1, "how do i fix this", 1, "no_answer", "pending", none⟩] 1).2.map
      Question.bestScriptId) = [some 3] := by
  refine ⟨by decide, update_best_script_invariant _ _ 1 (by decide), by decide⟩

/-! ## Manual best-script override (`set_best_script`, database.py 1722-1739) -/

/-- `set_best_script` (database.py 1722-1739): clear `is_best` on the
question's scripts, set `is_best = 1 WHERE id = ? AND question_id = ?`,
point the question's `best_script_id` at `scriptId` unconditionally, and
log the action. -/
def set_best_script (st : HubState) (questionId scriptId : Nat) (adminUser : String) : HubState :=
  let scripts1 := st.scripts.map (clearBest questionId)
  let scripts2 := scripts1.map fun s =>
    if s.id = scriptId ∧ s.questionId = questionId then { s with isBest := true } else s
  { st with
    scripts := scripts2
    questions := st.questions.map fun q =>
      if q.id = questionId then { q with bestScriptId := some scriptId } else q
    moderationLog := st.moderationLog ++
      [⟨questionId, some scriptId, "best_script_set", none, none,
        some (toString scriptId), adminUser⟩] }

/-- C10: calling the manual override with a script id that exists but
belongs to a different question clears `is_best` on every script of the
question and marks none of them, yet still sets the question's
`best_script_id` to the foreign script id — which afterwards names a
script of another question. -/
theorem set_best_script_foreign (st : HubState) (questionId scriptId : Nat) (adminUser : String)
    (hids : (st.scripts.map Script.id).Nodup) (s₀ : Script) (hs₀ : s₀ ∈ st.scripts)
    (hid : s₀.id = scriptId) (hforeign : s₀.questionId ≠ questionId) :
    (∀ s ∈ (set_best_script st questionId scriptId adminUser).scripts,
        s.questionId = questionId → s.isBest = false) ∧
    (∀ q ∈ (set_best_script st questionId scriptId adminUser).questions,
        q.id = questionId → q.bestScriptId = some scriptId) ∧
    (∃ s ∈ (set_best_script st questionId scriptId adminUser).scripts,
        s.id = scriptId ∧ s.questionId ≠ questionId) := by
  refine ⟨?_, ?_, ?_⟩
  · intro s hs hsq
    simp only [set_best_script, List.map_map, List.mem_map, Function.comp] at hs
    obtain ⟨s₁, hs₁mem, rfl⟩ := hs
    have hs₁q : s₁.questionId = questionId := by
      by_cases hc : (clearBest questionId s₁).id = scriptId ∧
          (clearBest questionId s₁).questionId = questionId
      · rw [if_pos hc] at hsq
        simpa using hsq
      · rw [if_neg hc] at hsq
        simpa using hsq
    have hcond : ¬((clearBest questionId s₁).id = scriptId ∧
        (clearBest questionId s₁).questionId = questionId) := by
      rintro ⟨h1, _⟩
      rw [clearBest_id] at h1
      have : s₁ = s₀ := List.inj_on_of_nodup_map hids hs₁mem hs₀ (h1.trans hid.symm)
      rw [this] at hs₁q
      exact hforeign hs₁q
    rw [if_neg hcond]
    unfold clearBest
    rw [if_pos hs₁q]
  · intro q hq hqid
    simp only [set_best_script, List.mem_map] at hq
    obtain ⟨q₀, _, rfl⟩ := hq
    by_cases h : q₀.id = questionId
    · rw [if_pos h]
    · rw [if_neg h] at hqid ⊢
      exact absurd hqid h
  · refine ⟨if (clearBest questionId s₀).id = scriptId ∧
        (clearBest questionId s₀).questionId = questionId
      then { clearBest questionId s₀ with isBest := true } else clearBest questionId s₀, ?_, ?_⟩
    · simp only [set_best_script, List.map_map, List.mem_map, Function.comp]
      exact ⟨s₀, hs₀, rfl⟩
    · have hcond : ¬((clearBest questionId s₀).id = scriptId ∧
          (clearBest questionId s₀).questionId = questionId) := by
        rintro ⟨_, h2⟩
        rw [clearBest_questionId] at h2
        exact hforeign h2
      rw [if_neg hcond]
      constructor
      · rw [clearBest_id]
        exact hid
      · rw [clearBest_questionId]
        exact hforeign

/-- C10 witness: a two-question state where script 9 belongs to question 2
and the override is invoked for question 1 with script 9. -/
theorem set_best_script_foreign_witness :
    (∀ s ∈ (set_best_script
        ⟨[⟨1, "q one", 1, "no_answer", "pending", none⟩,
          ⟨2, "q two", 1, "resolved", "approved", some 9⟩], [],
         [⟨9, 2, "try this", "instruction", false, 1, 0, 85, true⟩], [], []⟩
        1 9 "admin").scripts, s.questionId = 1 → s.isBest = false) ∧
    (∀ q ∈ (set_best_script
        ⟨[⟨1, "q one", 1, "no_answer", "pending", none⟩,
          ⟨2, "q two", 1, "resolved", "approved", some 9⟩], [],
         [⟨9, 2, "try this", "instruction", false, 1, 0, 85, true⟩], [], []⟩
        1 9 "admin").questions, q.id = 1 → q.bestScriptId = some 9) ∧
    (∃ s ∈ (set_best_script
        ⟨[⟨1, "q one", 1, "no_answer", "pending", none⟩,
          ⟨2, "q two", 1, "resolved", "approved", some 9⟩], [],
         [⟨9, 2, "try this", "instruction", false, 1, 0, 85, true⟩], [], []⟩
        1 9 "admin").scripts, s.id = 9 ∧ s.questionId ≠ 1) :=
  set_best_script_foreign _ 1 9 "admin" (by decide)
    ⟨9, 2, "try this", "instruction", false, 1, 0, 85, true⟩ (by decide) (by decide) (by decide)

/-! ## Merge (`merge_questions`, database.py 1549-1615) -/

/-- `merge_questions` (database.py 1549-1615): look up source and target
(failing with a message if either is missing), re-parent the source's
variants and scripts to the target, add the source's canonical text as a
new variant of the target, add `times_asked or 1` of the source to the
target, record the merge, delete the source question, recompute the
target's best script, and log the merge. -/
def merge_questions (st : HubState) (sourceId targetId : Nat) (adminUser : String) :
    Bool × String × HubState :=
  match st.questions.find? (fun q => q.id == sourceId) with
  | none => (false, "Source question not found", st)
  | some source =>
    match st.questions.find? (fun q => q.id == targetId) with
    | none => (false, "Target question not found", st)
    | some _ =>
      let sourceText := source.canonicalText
      let sourceTimes := if source.timesAsked = 0 then 1 else source.timesAsked
      let variants1 := (st.variants.map fun v =>
        if v.questionId = sourceId then { v with questionId := targetId } else v) ++
        [⟨targetId, sourceText⟩]
      let scripts1 := st.scripts.map fun s =>
        if s.questionId = sourceId then { s with questionId := targetId } else s
      let questions1 := st.questions.map fun q =>
        if q.id = targetId then { q with timesAsked := q.timesAsked + sourceTimes } else q
      let merged1 := st.mergedQuestions ++ [⟨sourceId, targetId, sourceText⟩]
      let questions2 := questions1.filter fun q => !(q.id == sourceId)
      let res := update_best_script scripts1 questions2 targetId
      let log1 := st.moderationLog ++
        [⟨targetId, none, "merged",
          some ("Merged question #" ++ toString sourceId ++ " into this question"),
          some sourceText, none, adminUser⟩]
      (true, "Questions merged successfully", ⟨res.2, variants1, res.1, merged1, log1⟩)

/-- The `(SELECT COUNT(*) FROM question_variants WHERE question_id = ...)`
subquery of `get_question`. -/
def variant_count (st : HubState) (qid : Nat) : Nat :=
  st.variants.countP fun v => v.questionId == qid

/-- The `(SELECT COUNT(*) FROM scripts WHERE question_id = ...)` subquery
of `get_question`. -/
def script_count (st : HubState) (qid : Nat) : Nat :=
  st.scripts.countP fun s => s.questionId == qid

/-- C5 counterexample: merging a source whose `times_asked` is 0 into a
target with `times_asked` 3 leaves the target at 4, not 3 + 0: the code
adds `times_asked or 1`, not `times_asked`. -/
theorem merge_questions_counterexample :
    (((merge_questions
        ⟨[⟨1, "question a", 0, "no_answer", "approved", none⟩,
          ⟨2, "question b", 3, "no_answer", "approved", none⟩], [], [], [], []⟩
        1 2 "admin").2.2.questions.find? fun q => q.id == 2).map Question.timesAsked)
      = some 4 ∧ (4 : Nat) ≠ 3 + 0 := by
  constructor
  · rfl
  · decide

theorem countP_or_disjoint {α : Type} (p q : α → Bool) :
    ∀ l : List α, (∀ a ∈ l, ¬(p a = true ∧ q a = true)) →
      l.countP (fun a => p a || q a) = l.countP p + l.countP q := by
  intro l
  induction l with
  | nil => intro _; rfl
  | cons a l ih =>
    intro h
    have hl := ih fun x hx => h x (List.mem_cons_of_mem a hx)
    have ha := h a (List.mem_cons_self a l)
    rw [List.countP_cons, List.countP_cons, List.countP_cons, hl]
    by_cases hp : p a = true <;> by_cases hq : q a = true
    · exact absurd ⟨hp, hq⟩ ha
    · rw [if_pos (show (p a || q a) = true by simp [hp]), if_pos hp,
        if_neg (show ¬ q a = true by simp [hq])]
      omega
    · rw [if_pos (show (p a || q a) = true by simp [hq]), if_pos hq,
        if_neg (show ¬ p a = true by simp [hp])]
      omega
    · rw [if_neg (show ¬ (p a || q a) = true by simp [hp, hq]),
        if_neg (show ¬ p a = true by simp [hp]), if_neg (show ¬ q a = true by simp [hq])]
      omega

theorem update_best_script_countP_questionId (scripts : List Script)
    (questions : List Question) (qid qid' : Nat) :
    (update_best_script scripts questions qid).1.countP (fun s => s.questionId == qid')
      = scripts.countP fun s => s.questionId == qid' := by
  unfold update_best_script
  cases hpick : pickBest ((scripts.map (clearBest qid)).filter fun s => s.questionId == qid) with
  | some b =>
    simp only [hpick, List.map_map, List.countP_map]
    apply List.countP_congr
    intro s _
    simp [Function.comp]
  | none =>
    simp only [hpick, List.countP_map]
    apply List.countP_congr
    intro s _
    simp [Function.comp]

theorem update_best_script_questions_shape (scripts : List Script) (questions : List Question)
    (qid : Nat) :
    ∃ f : Question → Question, (update_best_script scripts questions qid).2 = questions.map f ∧
      ∀ q, (f q).id = q.id ∧ (f q).timesAsked = q.timesAsked := by
  unfold update_best_script
  cases hpick : pickBest ((scripts.map (clearBest qid)).filter fun s => s.questionId == qid) with
  | some b =>
    refine ⟨fun q => if q.id = qid then
        { q with status := statusFor b.effectiveness, bestScriptId := some b.id } else q, ?_, ?_⟩
    · simp only [hpick]
    · intro q
      by_cases h : q.id = qid <;> simp [h]
  | none =>
    refine ⟨fun q => if q.id = qid then
        { q with status := "no_answer", bestScriptId := none } else q, ?_, ?_⟩
    · simp only [hpick]
    · intro q
      by_cases h : q.id = qid <;> simp [h]

theorem update_best_script_scripts_ids (scripts : List Script) (questions : List Question)
    (qid : Nat) :
    (update_best_script scripts questions qid).1.map Script.id = scripts.map Script.id := by
  unfold update_best_script
  cases hpick : pickBest ((scripts.map (clearBest qid)).filter fun s => s.questionId == qid) with
  | some b =>
    simp only [hpick, List.map_map]
    apply List.map_congr_left
    intro s _
    simp [Function.comp]
  | none =>
    simp only [hpick, List.map_map]
    apply List.map_congr_left
    intro s _
    simp [Function.comp]

/-- C5 amended: merging existing source into existing distinct target
re-parents all of the source's variants and scripts to the target, adds
the source's canonical text as one new variant of the target, adds the
source's times_asked — or 1 when that counter is 0/NULL — to the target's
times_asked, recomputes the target's best script, appends a merge record
and a moderation log entry, and removes the source question. -/
theorem merge_questions_spec (st : HubState) (sourceId targetId : Nat) (adminUser : String)
    (source target : Question)
    (hqids : (st.questions.map Question.id).Nodup)
    (hsids : (st.scripts.map Script.id).Nodup)
    (hne : sourceId ≠ targetId)
    (hs : st.questions.find? (fun q => q.id == sourceId) = some source)
    (ht : st.questions.find? (fun q => q.id == targetId) = some target) :
    (merge_questions st sourceId targetId adminUser).1 = true ∧
    (merge_questions st sourceId targetId adminUser).2.1 = "Questions merged successfully" ∧
    variant_count (merge_questions st sourceId targetId adminUser).2.2 targetId
      = variant_count st sourceId + variant_count st targetId + 1 ∧
    variant_count (merge_questions st sourceId targetId adminUser).2.2 sourceId = 0 ∧
    script_count (merge_questions st sourceId targetId adminUser).2.2 targetId
      = script_count st sourceId + script_count st targetId ∧
    script_count (merge_questions st sourceId targetId adminUser).2.2 sourceId = 0 ∧
    (∀ q ∈ (merge_questions st sourceId targetId adminUser).2.2.questions, q.id ≠ sourceId) ∧
    (∀ q ∈ (merge_questions st sourceId targetId adminUser).2.2.questions, q.id = targetId →
      q.timesAsked = target.timesAsked +
        (if source.timesAsked = 0 then 1 else source.timesAsked)) ∧
    (merge_questions st sourceId targetId adminUser).2.2.mergedQuestions
      = st.mergedQuestions ++ [⟨sourceId, targetId, source.canonicalText⟩] ∧
    (merge_questions st sourceId targetId adminUser).2.2.moderationLog
      = st.moderationLog ++
        [⟨targetId, none, "merged",
          some ("Merged question #" ++ toString sourceId ++ " into this question"),
          some source.canonicalText, none, adminUser⟩] ∧
    BestScriptInvariant (merge_questions st sourceId targetId adminUser).2.2.scripts
      (merge_questions st sourceId targetId adminUser).2.2.questions targetId := by
  have hsrc_id : source.id = sourceId := by simpa using List.find?_some hs
  have htgt_id : target.id = targetId := by simpa using List.find?_some ht
  have htgt_mem : target ∈ st.questions := List.mem_of_find?_eq_some ht
  simp only [merge_questions, hs, ht, variant_count, script_count]
  refine ⟨trivial, trivial, ?_, ?_, ?_, ?_, ?_, ?_, trivial, trivial, ?_⟩
  · -- target's variant count
    rw [List.countP_append, List.countP_map]
    have h1 : List.countP ((fun v => v.questionId == targetId) ∘ fun v =>
          if v.questionId = sourceId then { v with questionId := targetId } else v) st.variants
        = List.countP (fun v =>
            v.questionId == sourceId || v.questionId == targetId) st.variants := by
      apply List.countP_congr
      intro v _
      by_cases hv : v.questionId = sourceId
      · simp [Function.comp, hv]
      · simp [Function.comp, hv]
    rw [h1, countP_or_disjoint _ _ st.variants ?hdisj]
    case hdisj =>
      intro v _
      rintro ⟨h1', h2'⟩
      have e1 : v.questionId = sourceId := by simpa using h1'
      have e2 : v.questionId = targetId := by simpa using h2'
      exact hne (e1.symm.trans e2)
    simp
  · -- source's variant count is zero
    rw [List.countP_append, List.countP_map]
    have h1 : List.countP ((fun v => v.questionId == sourceId) ∘ fun v =>
          if v.questionId = sourceId then { v with questionId := targetId } else v) st.variants
        = 0 := by
      rw [List.countP_eq_zero]
      intro v _
      by_cases hv : v.questionId = sourceId
      · simp [Function.comp, hv]
        omega
      · simp [Function.comp, hv]
    rw [h1]
    simp [Ne.symm hne]
  · -- target's script count
    rw [update_best_script_countP_questionId, List.countP_map]
    have h1 : List.countP ((fun s => s.questionId == targetId) ∘ fun s =>
          if s.questionId = sourceId then { s with questionId := targetId } else s) st.scripts
        = List.countP (fun s =>
            s.questionId == sourceId || s.questionId == targetId) st.scripts := by
      apply List.countP_congr
      intro s _
      by_cases hsq : s.questionId = sourceId
      · simp [Function.comp, hsq]
      · simp [Function.comp, hsq]
    rw [h1, countP_or_disjoint _ _ st.scripts ?hdisj2]
    case hdisj2 =>
      intro s _
      rintro ⟨h1', h2'⟩
      have e1 : s.questionId = sourceId := by simpa using h1'
      have e2 : s.questionId = targetId := by simpa using h2'
      exact hne (e1.symm.trans e2)
  · -- source's script count is zero
    rw [update_best_script_countP_questionId, List.countP_map, List.countP_eq_zero]
    intro s _
    by_cases hsq : s.questionId = sourceId
    · simp [Function.comp, hsq]
      omega
    · simp [Function.comp, hsq]
  · -- the source question is gone
    intro q hq
    obtain ⟨f, hf, hfprop⟩ := update_best_script_questions_shape
      (st.scripts.map fun s =>
        if s.questionId = sourceId then { s with questionId := targetId } else s)
      ((st.questions.map fun q =>
        if q.id = targetId then
          { q with timesAsked := q.timesAsked +
              (if source.timesAsked = 0 then 1 else source.timesAsked) }
        else q).filter fun q => !(q.id == sourceId))
      targetId
    rw [hf] at hq
    obtain ⟨q₀, hq₀, rfl⟩ := List.mem_map.mp hq
    have h := List.of_mem_filter hq₀
    rw [(hfprop q₀).1]
    simpa using h
  · -- the target's times_asked
    intro q hq hqid
    obtain ⟨f, hf, hfprop⟩ := update_best_script_questions_shape
      (st.scripts.map fun s =>
        if s.questionId = sourceId then { s with questionId := targetId } else s)
      ((st.questions.map fun q =>
        if q.id = targetId then
          { q with timesAsked := q.timesAsked +
              (if source.timesAsked = 0 then 1 else source.timesAsked) }
        else q).filter fun q => !(q.id == sourceId))
      targetId
    rw [hf] at hq
    obtain ⟨q₀, hq₀, hfq₀⟩ := List.mem_map.mp hq
    have hq₁ := List.mem_of_mem_filter hq₀
    obtain ⟨q₁, hq₁mem, hq₁eq⟩ := List.mem_map.mp hq₁
    have h2 : q.timesAsked = q₀.timesAsked := by
      rw [← hfq₀]
      exact (hfprop q₀).2
    have h3 : q.id = q₀.id := by
      rw [← hfq₀]
      exact (hfprop q₀).1
    have hq₀id : q₀.id = targetId := h3.symm.trans hqid
    have hq₁id : q₁.id = targetId := by
      by_cases h : q₁.id = targetId
      · exact h
      · rw [if_neg h] at hq₁eq
        rw [← hq₁eq] at hq₀id
        exact absurd hq₀id h
    have hq₁target : q₁ = target :=
      List.inj_on_of_nodup_map hqids hq₁mem htgt_mem (hq₁id.trans htgt_id.symm)
    rw [h2, ← hq₁eq, if_pos hq₁id]
    simp [hq₁target]
  · -- best-script invariant for the target after the merge
    apply update_best_script_establishes
    rw [List.map_map]
    have h1 : (Script.id ∘ fun s =>
        if s.questionId = sourceId then { s with questionId := targetId } else s)
        = Script.id := by
      funext s
      by_cases hsq : s.questionId = sourceId
      · simp [Function.comp, hsq]
      · simp [Function.comp, hsq]
    rw [h1]
    exact hsids

/-- C5 witness: the spec's merge example — A (times_asked 5, 2 variants,
1 script) merged into B (times_asked 3, 0 variants, 2 scripts) leaves B
with 3 variants, 3 scripts, times_asked 8, and A gone. -/
theorem merge_questions_spec_witness :
    variant_count (merge_questions
      ⟨[⟨1, "question a", 5, "resolved", "approved", some 10⟩,
        ⟨2, "question b", 3, "resolved", "approved", some 20⟩],
       [⟨1, "variant a1"⟩, ⟨1, "variant a2"⟩],
       [⟨10, 1, "script a", "instruction", false, 1, 0, 85, true⟩,
        ⟨20, 2, "script b1", "instruction", false, 1, 0, 75, true⟩,
        ⟨21, 2, "script b2", "instruction", false, 0, 1, 35, false⟩], [], []⟩
      1 2 "admin").2.2 2 = 3 ∧
    script_count (merge_questions
      ⟨[⟨1, "question a", 5, "resolved", "approved", some 10⟩,
        ⟨2, "question b", 3, "resolved", "approved", some 20⟩],
       [⟨1, "variant a1"⟩, ⟨1, "variant a2"⟩],
       [⟨10, 1, "script a", "instruction", false, 1, 0, 85, true⟩,
        ⟨20, 2, "script b1", "instruction", false, 1, 0, 75, true⟩,
        ⟨21, 2, "script b2", "instruction", false, 0, 1, 35, false⟩], [], []⟩
      1 2 "admin").2.2 2 = 3 ∧
    (∀ q ∈ (merge_questions
      ⟨[⟨1, "question a", 5, "resolved", "approved", some 10⟩,
        ⟨2, "question b", 3, "resolved", "approved", some 20⟩],
       [⟨1, "variant a1"⟩, ⟨1, "variant a2"⟩],
       [⟨10, 1, "script a", "instruction", false, 1, 0, 85, true⟩,
        ⟨20, 2, "script b1", "instruction", false, 1, 0, 75, true⟩,
        ⟨21, 2, "script b2", "instruction", false, 0, 1, 35, false⟩], [], []⟩
      1 2 "admin").2.2.questions, q.id ≠ 1) ∧
    (∀ q ∈ (merge_questions
      ⟨[⟨1, "question a", 5, "resolved", "approved", some 10⟩,
        ⟨2, "question b", 3, "resolved", "approved", some 20⟩],
       [⟨1, "variant a1"⟩, ⟨1, "variant a2"⟩],
       [⟨10, 1, "script a", "instruction", false, 1, 0, 85, true⟩,
        ⟨20, 2, "script b1", "instruction", false, 1, 0, 75, true⟩,
        ⟨21, 2, "script b2", "instruction", false, 0, 1, 35, false⟩], [], []⟩
      1 2 "admin").2.2.questions, q.id = 2 → q.timesAsked = 8) := by
  have h := merge_questions_spec
    ⟨[⟨1, "question a", 5, "resolved", "approved", some 10⟩,
      ⟨2, "question b", 3, "resolved", "approved", some 20⟩],
     [⟨1, "variant a1"⟩, ⟨1, "variant a2"⟩],
     [⟨10, 1, "script a", "instruction", false, 1, 0, 85, true⟩,
      ⟨20, 2, "script b1", "instruction", false, 1, 0, 75, true⟩,
      ⟨21, 2, "script b2", "instruction", false, 0, 1, 35, false⟩], [], []⟩
    1 2 "admin"
    ⟨1, "question a", 5, "resolved", "approved", some 10⟩
    ⟨2, "question b", 3, "resolved", "approved", some 20⟩
    (by decide) (by decide) (by decide) rfl rfl
  obtain ⟨-, -, h3, -, h5, -, h7, h8, -, -, -⟩ := h
  refine ⟨?_, ?_, h7, ?_⟩
  · rw [h3]
    decide
  · rw [h5]
    decide
  · intro q hq hqid
    rw [h8 q hq hqid]
    decide

/-! ## Vector similarity (`cosine_similarity`, embeddings.py 45-60)

Python floats are modelled as real numbers here: the claims about this
function are the analytic facts (guard cases, symmetry, the [-1, 1] range,
self-similarity), which are exact statements about the real-valued
computation the code performs. -/

/-- `sum(a * b for a, b in zip(vec1, vec2))`. -/
noncomputable def dotProduct (v1 v2 : List ℝ) : ℝ :=
  (List.zipWith (fun a b => a * b) v1 v2).sum

/-- `math.sqrt(sum(a * a for a in v))`. -/
noncomputable def magnitude (v : List ℝ) : ℝ :=
  Real.sqrt ((v.map fun a => a * a).sum)

/-- `cosine_similarity` (embeddings.py 45-60): 0 on an empty or
length-mismatched pair (`not vec1 or not vec2 or len(vec1) != len(vec2)`),
0 when either magnitude is zero, and the normalized dot product
otherwise. -/
noncomputable def cosine_similarity (vec1 vec2 : List ℝ) : ℝ :=
  if vec1 = [] ∨ vec2 = [] ∨ vec1.length ≠ vec2.length then 0
  else if magnitude vec1 = 0 ∨ magnitude vec2 = 0 then 0
  else dotProduct vec1 vec2 / (magnitude vec1 * magnitude vec2)

theorem sumsq_nonneg (v : List ℝ) : 0 ≤ (v.map fun a => a * a).sum := by
  apply List.sum_nonneg
  intro x hx
  obtain ⟨a, _, rfl⟩ := List.mem_map.mp hx
  exact mul_self_nonneg a

theorem magnitude_sq (v : List ℝ) :
    magnitude v * magnitude v = (v.map fun a => a * a).sum :=
  Real.mul_self_sqrt (sumsq_nonneg v)

theorem dotProduct_self (v : List ℝ) :
    dotProduct v v = (v.map fun a => a * a).sum := by
  unfold dotProduct
  rw [List.zipWith_same]

/-- Cauchy–Schwarz for the list dot product, by induction on the lists. -/
theorem dotProduct_sq_le (v1 : List ℝ) : ∀ v2 : List ℝ,
    dotProduct v1 v2 ^ 2 ≤ (v1.map fun a => a * a).sum * (v2.map fun a => a * a).sum := by
  induction v1 with
  | nil =>
    intro v2
    simp [dotProduct]
  | cons x xs ih =>
    intro v2
    cases v2 with
    | nil =>
      simp [dotProduct, mul_nonneg (sumsq_nonneg (x :: xs))]
    | cons y ys =>
      have IH := ih ys
      have hA : 0 ≤ (xs.map fun a => a * a).sum := sumsq_nonneg xs
      have hB : 0 ≤ (ys.map fun a => a * a).sum := sumsq_nonneg ys
      simp only [dotProduct, List.zipWith_cons_cons, List.sum_cons, List.map_cons] at IH ⊢
      rcases eq_or_lt_of_le hA with hA0 | hA0
      · have hD2 : (List.zipWith (fun a b => a * b) xs ys).sum ^ 2 ≤ 0 := by
          rw [← hA0, zero_mul] at IH
          exact IH
        have hD : (List.zipWith (fun a b => a * b) xs ys).sum = 0 :=
          sq_eq_zero_iff.mp (le_antisymm hD2 (sq_nonneg _))
        rw [hD, ← hA0]
        nlinarith [mul_nonneg (mul_self_nonneg x) hB, sq_nonneg (x * y)]
      · nlinarith [IH, sq_nonneg (x * (List.zipWith (fun a b => a * b) xs ys).sum
            - y * (xs.map fun a => a * a).sum),
          mul_nonneg (mul_self_nonneg x) (sub_nonneg.mpr IH),
          mul_nonneg hA0.le (sub_nonneg.mpr IH), hB, hA0]

/-- C3: the similarity function is total and never divides by zero: it
returns exactly 0 on an empty, length-mismatched or zero-magnitude input;
it is symmetric; it always lies in [-1, 1]; and on a nonzero vector its
self-similarity is exactly 1. -/
theorem cosine_similarity_contract :
    (∀ a b : List ℝ, (a = [] ∨ b = [] ∨ a.length ≠ b.length) → cosine_similarity a b = 0) ∧
    (∀ a b : List ℝ, (magnitude a = 0 ∨ magnitude b = 0) → cosine_similarity a b = 0) ∧
    (∀ a b : List ℝ, cosine_similarity a b = cosine_similarity b a) ∧
    (∀ a b : List ℝ, -1 ≤ cosine_similarity a b ∧ cosine_similarity a b ≤ 1) ∧
    (∀ a : List ℝ, magnitude a ≠ 0 → cosine_similarity a a = 1) := by
  refine ⟨?_, ?_, ?_, ?_, ?_⟩
  · intro a b h
    unfold cosine_similarity
    rw [if_pos h]
  · intro a b h
    unfold cosine_similarity
    by_cases h1 : a = [] ∨ b = [] ∨ a.length ≠ b.length
    · rw [if_pos h1]
    · rw [if_neg h1, if_pos h]
  · intro a b
    unfold cosine_similarity
    have hdot : dotProduct a b = dotProduct b a := by
      unfold dotProduct
      rw [List.zipWith_comm_of_comm (fun a b => a * b) mul_comm]
    by_cases h1 : a = [] ∨ b = [] ∨ a.length ≠ b.length
    · have h1' : b = [] ∨ a = [] ∨ b.length ≠ a.length := by
        rcases h1 with h | h | h
        exacts [Or.inr (Or.inl h), Or.inl h, Or.inr (Or.inr (Ne.symm h))]
      rw [if_pos h1, if_pos h1']
    · have h1' : ¬(b = [] ∨ a = [] ∨ b.length ≠ a.length) := by
        intro h'
        apply h1
        rcases h' with h | h | h
        exacts [Or.inr (Or.inl h), Or.inl h, Or.inr (Or.inr (Ne.symm h))]
      rw [if_neg h1, if_neg h1']
      by_cases h2 : magnitude a = 0 ∨ magnitude b = 0
      · rw [if_pos h2, if_pos (Or.symm h2)]
      · rw [if_neg h2, if_neg (fun h => h2 (Or.symm h)), hdot, mul_comm]
  · intro a b
    unfold cosine_similarity
    by_cases h1 : a = [] ∨ b = [] ∨ a.length ≠ b.length
    · rw [if_pos h1]
      norm_num
    · rw [if_neg h1]
      by_cases h2 : magnitude a = 0 ∨ magnitude b = 0
      · rw [if_pos h2]
        norm_num
      · rw [if_neg h2]
        push_neg at h2
        have hma : 0 < magnitude a := lt_of_le_of_ne (Real.sqrt_nonneg _) (Ne.symm h2.1)
        have hmb : 0 < magnitude b := lt_of_le_of_ne (Real.sqrt_nonneg _) (Ne.symm h2.2)
        have hm : 0 < magnitude a * magnitude b := mul_pos hma hmb
        have hcs : dotProduct a b ^ 2 ≤ (magnitude a * magnitude b) ^ 2 := by
          have h := dotProduct_sq_le a b
          calc dotProduct a b ^ 2
              ≤ (a.map fun x => x * x).sum * (b.map fun x => x * x).sum := h
            _ = (magnitude a * magnitude a) * (magnitude b * magnitude b) := by
                rw [magnitude_sq, magnitude_sq]
            _ = (magnitude a * magnitude b) ^ 2 := by ring
        constructor
        · rw [le_div_iff₀ hm]
          nlinarith [hcs, hm, sq_nonneg (dotProduct a b + magnitude a * magnitude b)]
        · rw [div_le_one hm]
          nlinarith [hcs, hm, sq_nonneg (dotProduct a b - magnitude a * magnitude b)]
  · intro a ha
    unfold cosine_similarity
    have hmag_nil : magnitude ([] : List ℝ) = 0 := by
      unfold magnitude
      simp
    have hne : ¬(a = [] ∨ a = [] ∨ a.length ≠ a.length) := by
      rintro (h | h | h)
      · exact ha (h ▸ hmag_nil)
      · exact ha (h ▸ hmag_nil)
      · exact h rfl
    rw [if_neg hne, if_neg (by rintro (h | h) <;> exact ha h), dotProduct_self, magnitude_sq]
    have hS : (a.map fun x => x * x).sum ≠ 0 := by
      intro h0
      apply ha
      unfold magnitude
      rw [h0, Real.sqrt_zero]
    exact div_self hS

/-- C3 witness: the guard case on two empty vectors and self-similarity
of the nonzero vector [2]. -/
theorem cosine_similarity_contract_witness :
    cosine_similarity ([] : List ℝ) [] = 0 ∧ cosine_similarity [(2 : ℝ)] [2] = 1 := by
  refine ⟨cosine_similarity_contract.1 [] [] (Or.inl rfl),
    cosine_similarity_contract.2.2.2.2 [2] ?_⟩
  unfold magnitude
  simp only [List.map_cons, List.map_nil, List.sum_cons, List.sum_nil]
  rw [Real.sqrt_ne_zero']
  norm_num

/-! ## Deduplication resolver (`find_similar_question`, embeddings.py 63-115) -/

/-- A row of `get_all_questions_with_embeddings` (database.py 658-675):
only questions whose embedding blob is non-NULL are fetched; a blob that
decodes to the empty list is still skipped by the scan's truthiness
check. -/
structure QuestionRow where
  id : Nat
  canonicalText : String
  embedding : List ℝ

/-- The dict `find_similar_question` returns. -/
structure MatchResult where
  questionId : Option Nat
  similarity : ℝ
  canonicalText : Option String
  embedding : List ℝ

/-- One iteration of the scan loop (embeddings.py 92-98): skip a question
with a falsy embedding, otherwise keep the strictly best similarity seen
so far (ties keep the earlier question). -/
noncomputable def scanStep (newEmbedding : List ℝ) (acc : Option QuestionRow × ℝ)
    (q : QuestionRow) : Option QuestionRow × ℝ :=
  if q.embedding ≠ [] then
    if acc.2 < cosine_similarity newEmbedding q.embedding then
      (some q, cosine_similarity newEmbedding q.embedding)
    else acc
  else acc

/-- `find_similar_question` (embeddings.py 63-115): `None` when the
candidate embedding is falsy (the embedding call failed) or when there are
no stored questions with embeddings at all; otherwise scan for the best
match and return either the matched question (similarity ≥ threshold) or
a no-match result carrying the computed candidate vector. -/
noncomputable def find_similar_question (newEmbedding : List ℝ)
    (questions : List QuestionRow) (threshold : ℝ) : Option MatchResult :=
  if newEmbedding = [] then none
  else if questions.isEmpty then none
  else
    match questions.foldl (scanStep newEmbedding) (none, 0) with
    | (some q, s) =>
      if threshold ≤ s then some ⟨some q.id, s, some q.canonicalText, newEmbedding⟩
      else some ⟨none, s, none, newEmbedding⟩
    | (none, _) => some ⟨none, 0, none, newEmbedding⟩

/-- C4 counterexample: with zero stored questions the resolver returns
Python `None` — no result at all, and in particular no no-match result
carrying the computed vector. -/
theorem find_similar_question_empty_counterexample :
    find_similar_question [(1 : ℝ)] [] (85 / 100) = none := by
  unfold find_similar_question
  rw [if_neg (by simp)]
  rfl

theorem foldl_scanStep_result (emb : List ℝ) :
    ∀ (qs : List QuestionRow) (acc : Option QuestionRow × ℝ) (q : QuestionRow) (s : ℝ),
      qs.foldl (scanStep emb) acc = (some q, s) →
      acc = (some q, s) ∨ (q ∈ qs ∧ s = cosine_similarity emb q.embedding) := by
  intro qs
  induction qs with
  | nil =>
    intro acc q s h
    exact Or.inl h
  | cons r rest ih =>
    intro acc q s h
    rcases ih (scanStep emb acc r) q s h with h1 | h1
    · unfold scanStep at h1
      by_cases hr : r.embedding ≠ []
      · rw [if_pos hr] at h1
        by_cases hlt : acc.2 < cosine_similarity emb r.embedding
        · rw [if_pos hlt] at h1
          have hq : some r = some q := congrArg Prod.fst h1
          have hs : cosine_similarity emb r.embedding = s := congrArg Prod.snd h1
          have hr : r = q := Option.some_inj.mp hq
          refine Or.inr ⟨?_, ?_⟩
          · rw [← hr]
            exact List.mem_cons_self r rest
          · rw [← hr]
            exact hs.symm
        · rw [if_neg hlt] at h1
          exact Or.inl h1
      · rw [if_neg hr] at h1
        exact Or.inl h1
    · exact Or.inr ⟨List.mem_cons_of_mem r h1.1, h1.2⟩

/-- C4 amended: when the candidate embedding was computed and the corpus
of stored questions is NON-empty, and no stored question's similarity
reaches the threshold, the resolver returns a no-match result: question_id
null together with the computed candidate vector.  (With an empty corpus
it instead returns `None` and the vector is discarded.) -/
theorem find_similar_question_no_match (emb : List ℝ) (qs : List QuestionRow) (t : ℝ)
    (h1 : emb ≠ []) (h2 : qs ≠ [])
    (h3 : ∀ q ∈ qs, cosine_similarity emb q.embedding < t) :
    ∃ r : MatchResult, find_similar_question emb qs t = some r ∧
      r.questionId = none ∧ r.embedding = emb := by
  unfold find_similar_question
  rw [if_neg h1, if_neg (by simpa using h2)]
  rcases hscan : qs.foldl (scanStep emb) (none, 0) with ⟨fst, snd⟩
  cases fst with
  | none =>
    simp only [hscan]
    exact ⟨⟨none, 0, none, emb⟩, rfl, rfl, rfl⟩
  | some q =>
    rcases foldl_scanStep_result emb qs (none, 0) q snd hscan with hacc | ⟨hqmem, hsim⟩
    · exact absurd (congrArg Prod.fst hacc) (by simp)
    · have hlt : snd < t := hsim ▸ h3 q hqmem
      simp only [hscan]
      rw [if_neg (not_le.mpr hlt)]
      exact ⟨⟨none, snd, none, emb⟩, rfl, rfl, rfl⟩

/-- C4 witness: a one-question corpus whose stored embedding decodes to
the empty list (falsy, so it is skipped): the scan finds no match and the
resolver returns the no-match result with the candidate vector. -/
theorem find_similar_question_no_match_witness :
    ∃ r : MatchResult,
      find_similar_question [(1 : ℝ)] [⟨7, "how do i pay my bill", []⟩] (85 / 100) = some r ∧
      r.questionId = none ∧ r.embedding = [(1 : ℝ)] := by
  apply find_similar_question_no_match
  · simp
  · simp
  · intro q hq
    have hq' : q = ⟨7, "how do i pay my bill", []⟩ := by
      simpa using hq
    rw [hq']
    have h0 : cosine_similarity [(1 : ℝ)] [] = 0 :=
      cosine_similarity_contract.1 [(1 : ℝ)] [] (Or.inr (Or.inl rfl))
    rw [h0]
    norm_num
